import Mathlib

/-!
# Out-of-line C2 code stubs on x86-64

A shallow embedding of `src/hotspot/cpu/x86/c2_CodeStubs_x86.cpp`:
`C2SafepointPollStub`, `C2EntryBarrierStub` and `C2FastUnlockLightweightStub`,
each with its `max_size()` and its `emit(C2_MacroAssembler&)`.

`emit` is stateful code over the assembler, so it is embedded as explicit
state passing on `C2_MacroAssembler`; a failed assertion or a null
dereference is the `fatal` result.  The assembler itself, the thread layout
constants and the processor are not part of the source file: the constants
are parameters (`VM`), the assembler primitives and the meaning of the
emitted instructions are modelled from the specification.
-/

namespace C2CodeStubs

/-! ## Data model -/

/-- Machine addresses (`address`): 64-bit values. -/
abbrev address := Nat

/-- The null pointer. -/
def nullptr : address := 0

/-- The sixteen general purpose registers of x86-64 (`Register`). -/
inductive Register
  | rax | rcx | rdx | rbx | rsp | rbp | rsi | rdi
  | r8 | r9 | r10 | r11 | r12 | r13 | r14 | r15
  deriving DecidableEq, Repr

/-- The scratch register `rscratch1` of the x86-64 port. -/
def rscratch1 : Register := Register.r10

/-- The register holding the current `JavaThread`, `r15_thread`. -/
def r15_thread : Register := Register.r15

/-- A `Label` is identified by the label object; two distinct label members
are two distinct identities. -/
abbrev Label := Nat

/-- An `AddressLiteral`: an absolute address embedded in the code, built in the
source either as `InternalAddress(..)` or as `RuntimeAddress(..)`. -/
inductive AddressLiteral
  | InternalAddress (target : address)
  | RuntimeAddress (target : address)
  deriving DecidableEq, Repr

/-- The embedded absolute address of a literal. -/
def AddressLiteral.target : AddressLiteral → address
  | InternalAddress t => t
  | RuntimeAddress t => t

/-- A memory operand `Address`, in the two forms the source builds:
`Address(base, disp)` and `Address(base, index)`. -/
inductive Address
  | disp (base : Register) (disp : Nat)
  | index (base : Register) (index : Register)
  deriving DecidableEq, Repr

/-- The assembler operations the three `emit` functions invoke, one
constructor per call form that occurs in the source, operands as written
there.  `jmp` records its `maybe_short` argument, `none` when the source
omits it. -/
inductive Instr
  | lea (dst : Register) (src : AddressLiteral)
  | movptr (dst : Address) (src : Register)
  | jump (dst : AddressLiteral)
  | call (entry : AddressLiteral)
  | jmp (L : Label) (maybe_short : Option Bool)
  | movl (dst : Register) (src : Address)
  | addl (dst : Address) (imm32 : Nat)
  deriving DecidableEq, Repr

/-- A code blob of the shared runtime, of which `emit` uses `entry_point()`. -/
structure CodeBlob where
  entry_point : address
  deriving DecidableEq, Repr

/-- What `emit` reads from outside the source file, taken as parameters:
the build flag `ASSERT`, the shared runtime routines
(`SharedRuntime::polling_page_return_handler_blob()`, a pointer that may be
null, and `StubRoutines::method_entry_barrier()`), the `JavaThread` field
offsets, `oopSize`, and the encoded length the instruction encoder gives each
assembler operation. -/
structure VM where
  ASSERT : Bool
  polling_page_return_handler_blob : Option CodeBlob
  method_entry_barrier : address
  saved_exception_pc_offset : Nat
  lock_stack_top_offset : Nat
  oopSize : Nat
  instr_size : Instr → Nat

/-! ## The assembler -/

/-- Modelled from the spec: the assembler and its code buffer
(`C2_MacroAssembler`) are not in the source file.  Spec §2: an append-only
buffer with current-offset queries and label binding; labels are slots holding
either "unbound" or a final offset.  `code_begin` is the address of the first
byte of the code section, `offset` the current end of the buffer, `code` the
operations appended so far, in order. -/
structure C2_MacroAssembler where
  code_begin : address
  offset : Nat
  code : List Instr
  labels : Label → Option Nat

/-- The result of running `emit`: the assembler afterwards, or a fatal error
together with the assembler as it was when the error was raised. -/
inductive Emit
  | ok (masm : C2_MacroAssembler)
  | fatal (msg : String) (masm : C2_MacroAssembler)

/-- The assembler a run of `emit` ends with. -/
def Emit.masm : Emit → C2_MacroAssembler
  | ok m => m
  | fatal _ m => m

/-- Whether a run of `emit` ended without a fatal error. -/
def Emit.succeeded : Emit → Bool
  | ok _ => true
  | fatal _ _ => false

/-- Modelled from the spec: `masm.pc()`, the absolute address of the current
end of the buffer, `code_begin + offset` as a 64-bit pointer. -/
def C2_MacroAssembler.pc (masm : C2_MacroAssembler) : address :=
  (masm.code_begin + masm.offset) % 2 ^ 64

/-- Pointer minus integer, in 64-bit pointer arithmetic. -/
def address_sub (p : address) (n : Nat) : address :=
  (p + (2 ^ 64 - n % 2 ^ 64)) % 2 ^ 64

/-- Pointer plus integer, in 64-bit pointer arithmetic. -/
def address_add (p : address) (n : Nat) : address :=
  (p + n) % 2 ^ 64

/-- Modelled from the spec: `masm.bind(L)`, missing from the source file.
Spec §2: a label is a symbolic buffer position, bindable once; binding records
the current offset in the label's slot. -/
def C2_MacroAssembler.bind (masm : C2_MacroAssembler) (L : Label) : Emit :=
  match masm.labels L with
  | some _ => Emit.fatal "label already bound" masm
  | none =>
    Emit.ok { masm with labels := fun l => if l = L then some masm.offset else masm.labels l }

/-- Modelled from the spec: appending one assembler operation at the current
end of the buffer (spec §4.1: "appends machine code at the buffer's current
end"); the offset advances by the operation's encoded length. -/
def C2_MacroAssembler.append (vm : VM) (masm : C2_MacroAssembler) (i : Instr) :
    C2_MacroAssembler :=
  { masm with code := masm.code ++ [i], offset := masm.offset + vm.instr_size i }

/-- The call `masm.lea(dst, literal)`. -/
def C2_MacroAssembler.lea (vm : VM) (masm : C2_MacroAssembler) (dst : Register)
    (src : AddressLiteral) : C2_MacroAssembler :=
  masm.append vm (Instr.lea dst src)

/-- The call `masm.movptr(Address, Register)`. -/
def C2_MacroAssembler.movptr (vm : VM) (masm : C2_MacroAssembler) (dst : Address)
    (src : Register) : C2_MacroAssembler :=
  masm.append vm (Instr.movptr dst src)

/-- The call `masm.jump(literal)`. -/
def C2_MacroAssembler.jump (vm : VM) (masm : C2_MacroAssembler) (dst : AddressLiteral) :
    C2_MacroAssembler :=
  masm.append vm (Instr.jump dst)

/-- The call `masm.call(literal)`. -/
def C2_MacroAssembler.call (vm : VM) (masm : C2_MacroAssembler) (entry : AddressLiteral) :
    C2_MacroAssembler :=
  masm.append vm (Instr.call entry)

/-- The call `masm.jmp(L)` or `masm.jmp(L, maybe_short)`. -/
def C2_MacroAssembler.jmp (vm : VM) (masm : C2_MacroAssembler) (L : Label)
    (maybe_short : Option Bool) : C2_MacroAssembler :=
  masm.append vm (Instr.jmp L maybe_short)

/-- The call `masm.movl(Register, Address)`. -/
def C2_MacroAssembler.movl (vm : VM) (masm : C2_MacroAssembler) (dst : Register)
    (src : Address) : C2_MacroAssembler :=
  masm.append vm (Instr.movl dst src)

/-- The call `masm.addl(Address, imm32)`. -/
def C2_MacroAssembler.addl (vm : VM) (masm : C2_MacroAssembler) (dst : Address)
    (imm32 : Nat) : C2_MacroAssembler :=
  masm.append vm (Instr.addl dst imm32)

/-- The operations a run of `emit` appended to the assembler `before`. -/
def emitted (before : C2_MacroAssembler) (r : Emit) : List Instr :=
  r.masm.code.drop before.code.length

/-- Modelled from the spec: the `assert(cond, msg)` of the source is declared
outside the source file.  Spec §4.1 and §7: failures are reported through
build-time assertions and are fatal to the compilation; like the
`ASSERT`-guarded block of the third stub they belong to diagnostic builds.
The assertion fails when the build checks it and the condition is false. -/
def assert_fails (vm : VM) (cond : Bool) : Bool :=
  vm.ASSERT && !cond

/-! ## The three stubs -/

/-- `C2SafepointPollStub`: the labels `entry()` and `continuation()` of every
stub, and the safepoint offset. -/
structure C2SafepointPollStub where
  entry : Label
  continuation : Label
  _safepoint_offset : Nat
  deriving DecidableEq, Repr

/-- `C2EntryBarrierStub`: only the labels of every stub. -/
structure C2EntryBarrierStub where
  entry : Label
  continuation : Label
  deriving DecidableEq, Repr

/-- `C2FastUnlockLightweightStub`: the labels of every stub, the registers
`_obj`, `_t`, `_thread`, the label `_push_and_slow_path` and the label
`slow_path_continuation()`. -/
structure C2FastUnlockLightweightStub where
  entry : Label
  slow_path_continuation : Label
  _obj : Register
  _t : Register
  _thread : Register
  _push_and_slow_path : Label
  deriving DecidableEq, Repr

/-- `C2SafepointPollStub::max_size()`. -/
def C2SafepointPollStub.max_size (_self : C2SafepointPollStub) : Nat := 33

/-- `C2SafepointPollStub::emit`.  After the `assert`, `blob->entry_point()`
dereferences the blob pointer: on a null blob that is a fatal null
dereference. -/
def C2SafepointPollStub.emit (vm : VM) (self : C2SafepointPollStub)
    (masm : C2_MacroAssembler) : Emit :=
  if assert_fails vm (decide (vm.polling_page_return_handler_blob ≠ none)) then
    Emit.fatal "assert failed: polling page return stub not created yet" masm
  else
    match vm.polling_page_return_handler_blob with
    | none => Emit.fatal "null pointer dereference" masm
    | some blob =>
      let stub := blob.entry_point
      let callback_addr := AddressLiteral.RuntimeAddress stub
      match masm.bind self.entry with
      | Emit.fatal msg m => Emit.fatal msg m
      | Emit.ok masm =>
        let safepoint_pc := AddressLiteral.InternalAddress
          (address_add (address_sub masm.pc masm.offset) self._safepoint_offset)
        let masm := masm.lea vm rscratch1 safepoint_pc
        let masm := masm.movptr vm (Address.disp r15_thread vm.saved_exception_pc_offset)
          rscratch1
        Emit.ok (masm.jump vm callback_addr)

/-- `C2EntryBarrierStub::max_size()`. -/
def C2EntryBarrierStub.max_size (_self : C2EntryBarrierStub) : Nat := 10

/-- `C2EntryBarrierStub::emit`. -/
def C2EntryBarrierStub.emit (vm : VM) (self : C2EntryBarrierStub)
    (masm : C2_MacroAssembler) : Emit :=
  match masm.bind self.entry with
  | Emit.fatal msg m => Emit.fatal msg m
  | Emit.ok masm =>
    let masm := masm.call vm (AddressLiteral.RuntimeAddress vm.method_entry_barrier)
    Emit.ok (masm.jmp vm self.continuation (some false))

/-- `C2FastUnlockLightweightStub::max_size()`. -/
def C2FastUnlockLightweightStub.max_size (_self : C2FastUnlockLightweightStub) : Nat := 128

/-- `C2FastUnlockLightweightStub::emit`.  The block between `#ifdef ASSERT`
and `#endif` is emitted in `ASSERT` builds only. -/
def C2FastUnlockLightweightStub.emit (vm : VM) (self : C2FastUnlockLightweightStub)
    (masm : C2_MacroAssembler) : Emit :=
  if assert_fails vm (decide (self._t = Register.rax)) then
    Emit.fatal "assert failed: must be" masm
  else
    match masm.bind self._push_and_slow_path with
    | Emit.fatal msg m => Emit.fatal msg m
    | Emit.ok masm =>
      let masm :=
        if vm.ASSERT then
          let masm := masm.movl vm self._t (Address.disp self._thread vm.lock_stack_top_offset)
          masm.movptr vm (Address.index self._thread self._t) self._obj
        else masm
      let masm := masm.addl vm (Address.disp self._thread vm.lock_stack_top_offset) vm.oopSize
      Emit.ok (masm.jmp vm self.slow_path_continuation none)

/-- The closed set of stub kinds; `emit` and `max_size` are virtual in the
source and dispatch on the kind. -/
inductive C2CodeStub
  | SafepointPoll (stub : C2SafepointPollStub)
  | EntryBarrier (stub : C2EntryBarrierStub)
  | FastUnlockLightweight (stub : C2FastUnlockLightweightStub)
  deriving DecidableEq, Repr

/-- Virtual `max_size()`. -/
def C2CodeStub.max_size : C2CodeStub → Nat
  | SafepointPoll s => s.max_size
  | EntryBarrier s => s.max_size
  | FastUnlockLightweight s => s.max_size

/-- Virtual `emit(masm)`. -/
def C2CodeStub.emit (vm : VM) : C2CodeStub → C2_MacroAssembler → Emit
  | SafepointPoll s => s.emit vm
  | EntryBarrier s => s.emit vm
  | FastUnlockLightweight s => s.emit vm

/-- The label each `emit` passes to `bind`: `entry()` in
`C2SafepointPollStub::emit` and `C2EntryBarrierStub::emit`,
`_push_and_slow_path` in `C2FastUnlockLightweightStub::emit`. -/
def C2CodeStub.bound_label : C2CodeStub → Label
  | SafepointPoll s => s.entry
  | EntryBarrier s => s.entry
  | FastUnlockLightweight s => s._push_and_slow_path


/-! ## Running the emitted code -/

/-- Modelled from the spec: the state of the processor that runs the emitted
code, which is outside the source file: the general purpose registers (64-bit
values), byte-addressed memory, and the zero flag. -/
structure Machine where
  reg : Register → Nat
  mem : Nat → Nat
  ZF : Bool

/-- Little-endian load of `n` bytes at address `a`. -/
def load : Nat → (Nat → Nat) → Nat → Nat
  | 0, _, _ => 0
  | n + 1, mem, a => mem a % 256 + 256 * load n mem (a + 1)

/-- Little-endian store of the low `n` bytes of `v` at address `a`. -/
def store : Nat → (Nat → Nat) → Nat → Nat → (Nat → Nat)
  | 0, mem, _, _ => mem
  | n + 1, mem, a, v =>
    store n (fun x => if x = a then v % 256 else mem x) (a + 1) (v / 256)

/-- Write a 64-bit register. -/
def Machine.set_reg (s : Machine) (r : Register) (v : Nat) : Machine :=
  { s with reg := fun x => if x = r then v % 2 ^ 64 else s.reg x }

/-- The effective address of a memory operand: base plus displacement, or
base plus index, as a 64-bit address. -/
def Address.ea (s : Machine) : Address → Nat
  | Address.disp base d => (s.reg base + d) % 2 ^ 64
  | Address.index base idx => (s.reg base + s.reg idx) % 2 ^ 64

/-- How control leaves a stub's code. -/
inductive Exit
  | jump (target : address)
  | jmp (L : Label)
  | call_never_returned (target : address)
  | fall_through
  deriving DecidableEq, Repr

/-- The result of running a stub's code: how control left, the machine state
then, and the runtime routines called on the way, in order. -/
structure Outcome where
  exit : Exit
  state : Machine
  calls : List address

/-- Modelled from the spec: the meaning of the emitted operations, which the
processor and the assembler define outside the source file.  Spec §4.2: `lea`
computes the address, `movptr` stores it into the slot of the thread's control
block, `jump` is the non-returning tail-jump to the shared routine; §4.3:
`call` is an ordinary call of the shared routine (a parameter here: `routine
target s` is the state in which it returns, `none` when it never returns, and
the return address it is given and consumes is part of it), `jmp` the
unconditional jump to a label; §4.4 and §6: `movl` is a 32-bit load into a
register, `movptr` a pointer-sized store, `addl` a 32-bit add to memory that
sets the zero flag from its result.  `calls` accumulates the called routines. -/
def exec (routine : address → Machine → Option Machine) :
    List Instr → Machine → List address → Outcome
  | [], s, calls => { exit := Exit.fall_through, state := s, calls := calls }
  | Instr.lea dst src :: rest, s, calls =>
    exec routine rest (s.set_reg dst src.target) calls
  | Instr.movptr dst src :: rest, s, calls =>
    exec routine rest { s with mem := store 8 s.mem (dst.ea s) (s.reg src) } calls
  | Instr.jump dst :: _, s, calls =>
    { exit := Exit.jump dst.target, state := s, calls := calls }
  | Instr.call entry :: rest, s, calls =>
    match routine entry.target s with
    | none =>
      { exit := Exit.call_never_returned entry.target, state := s,
        calls := calls ++ [entry.target] }
    | some s' => exec routine rest s' (calls ++ [entry.target])
  | Instr.jmp L _ :: _, s, calls =>
    { exit := Exit.jmp L, state := s, calls := calls }
  | Instr.movl dst src :: rest, s, calls =>
    exec routine rest (s.set_reg dst (load 4 s.mem (src.ea s))) calls
  | Instr.addl dst imm32 :: rest, s, calls =>
    let result := (load 4 s.mem (dst.ea s) + imm32) % 2 ^ 32
    exec routine rest
      { s with mem := store 4 s.mem (dst.ea s) result, ZF := decide (result = 0) } calls

/-- Running, from the machine state `s` and with no routine called yet, the
code that a run of `emit` appended to the assembler `before`. -/
def run_emitted (routine : address → Machine → Option Machine) (before : C2_MacroAssembler)
    (r : Emit) (s : Machine) : Outcome :=
  exec routine (emitted before r) s []

/-- The address of the thread field at byte offset `off` from the thread
register `thread`. -/
def field_address (s : Machine) (thread : Register) (off : Nat) : Nat :=
  (Address.disp thread off).ea s

/-- The operations of a stub without their embedded absolute addresses: the
target of every address literal is replaced by zero. -/
def Instr.shape : Instr → Instr
  | Instr.lea dst (AddressLiteral.InternalAddress _) =>
    Instr.lea dst (AddressLiteral.InternalAddress 0)
  | Instr.lea dst (AddressLiteral.RuntimeAddress _) =>
    Instr.lea dst (AddressLiteral.RuntimeAddress 0)
  | Instr.jump (AddressLiteral.InternalAddress _) =>
    Instr.jump (AddressLiteral.InternalAddress 0)
  | Instr.jump (AddressLiteral.RuntimeAddress _) =>
    Instr.jump (AddressLiteral.RuntimeAddress 0)
  | Instr.call (AddressLiteral.InternalAddress _) =>
    Instr.call (AddressLiteral.InternalAddress 0)
  | Instr.call (AddressLiteral.RuntimeAddress _) =>
    Instr.call (AddressLiteral.RuntimeAddress 0)
  | i => i

/-- Whether an operation is an unconditional jump: `jump` to a runtime
address or `jmp` to a label. -/
def Instr.is_unconditional_jump : Instr → Bool
  | Instr.jump _ => true
  | Instr.jmp _ _ => true
  | _ => false

/-! ## Sample inputs -/

/-- A sample context: both shared routines resolved, sample field offsets,
eight-byte slots, and a sample encoder that gives every operation five
bytes. -/
def sample_vm (debug : Bool) : VM :=
  { ASSERT := debug
    polling_page_return_handler_blob := some { entry_point := 0x7f0000200000 }
    method_entry_barrier := 0x7f0000100000
    saved_exception_pc_offset := 1000
    lock_stack_top_offset := 1800
    oopSize := 8
    instr_size := fun _ => 5 }

/-- The sample context before the shared routines are created: the handler
blob and the method entry barrier are both null. -/
def sample_vm_unresolved (debug : Bool) : VM :=
  { sample_vm debug with
    polling_page_return_handler_blob := none
    method_entry_barrier := nullptr }

/-- An assembler holding a 50-byte main body and no bound label. -/
def sample_masm : C2_MacroAssembler :=
  { code_begin := 0x7f0000400000, offset := 50, code := [], labels := fun _ => none }

/-- The same section after 40 more bytes of other stubs. -/
def sample_masm_later : C2_MacroAssembler :=
  { code_begin := 0x7f0000400000, offset := 90, code := [], labels := fun _ => none }

/-- A safepoint poll stub with safepoint offset 10. -/
def sample_safepoint : C2SafepointPollStub :=
  { entry := 0, continuation := 1, _safepoint_offset := 10 }

/-- An entry barrier stub. -/
def sample_barrier : C2EntryBarrierStub :=
  { entry := 2, continuation := 3 }

/-- A fast-unlock stub: object in `rcx`, scratch `rax`, thread `r15`. -/
def sample_unlock : C2FastUnlockLightweightStub :=
  { entry := 4, slow_path_continuation := 5, _obj := Register.rcx, _t := Register.rax,
    _thread := Register.r15, _push_and_slow_path := 6 }

/-- A machine state: the thread at `0x10000`, an object reference in `rcx`,
and the lock-stack-top field (at thread offset 1800) holding 1824. -/
def sample_machine : Machine :=
  { reg := fun r =>
      if r = Register.r15 then 0x10000 else if r = Register.rcx then 0xcafe0 else 0
    mem := fun a => if a = 0x10000 + 1800 then 32 else if a = 0x10000 + 1801 then 7 else 0
    ZF := true }

/-- A test double for a runtime routine: it returns at once, state unchanged. -/
def sample_routine : address → Machine → Option Machine :=
  fun _ s => some s

/-! ## Theorems -/

theorem safepoint_pc_eq (B o k : Nat) :
    address_add (address_sub ((B + o) % 2 ^ 64) o) k = (B + k) % 2 ^ 64 := by
  have h : (((B + o) % 2 ^ 64 + (2 ^ 64 - o % 2 ^ 64)) % 2 ^ 64 + k) % 2 ^ 64
      = (B + k) % 2 ^ 64 := by omega
  exact h

theorem load_congr (n : Nat) : ∀ (m1 m2 : Nat → Nat) (a : Nat),
    (∀ x, a ≤ x → x < a + n → m1 x = m2 x) → load n m1 a = load n m2 a := by
  induction n with
  | zero => intro m1 m2 a _; rfl
  | succ n ih =>
    intro m1 m2 a h
    simp only [load]
    rw [h a (le_refl a) (by omega), ih m1 m2 (a + 1) (fun x h1 h2 => h x (by omega) (by omega))]

theorem store_outside (n : Nat) : ∀ (mem : Nat → Nat) (a v x : Nat),
    (x < a ∨ a + n ≤ x) → store n mem a v x = mem x := by
  induction n with
  | zero => intro mem a v x _; rfl
  | succ n ih =>
    intro mem a v x h
    simp only [store]
    rw [ih _ (a + 1) (v / 256) x (by omega)]
    have : x ≠ a := by omega
    simp [this]

theorem load_store_same (n : Nat) : ∀ (mem : Nat → Nat) (a v : Nat),
    load n (store n mem a v) a = v % 256 ^ n := by
  induction n with
  | zero => intro mem a v; simp [load, Nat.mod_one]
  | succ n ih =>
    intro mem a v
    simp only [load, store]
    rw [ih, store_outside n _ (a + 1) (v / 256) a (by omega)]
    simp only [if_true]
    rw [Nat.mod_mod, pow_succ, mul_comm (256 ^ n) 256, Nat.mod_mul]

theorem load_store_disjoint (n k : Nat) (mem : Nat → Nat) (a b v : Nat)
    (h : b + k ≤ a ∨ a + n ≤ b) : load k (store n mem a v) b = load k mem b := by
  apply load_congr
  intro x h1 h2
  exact store_outside n mem a v x (by omega)

theorem load_lt (n : Nat) : ∀ (mem : Nat → Nat) (a : Nat), load n mem a < 256 ^ n := by
  induction n with
  | zero => intro mem a; simp [load]
  | succ n ih =>
    intro mem a
    simp only [load, pow_succ]
    have := ih mem (a + 1)
    have h2 : mem a % 256 < 256 := Nat.mod_lt _ (by norm_num)
    nlinarith


theorem safepoint_emit_ok (vm : VM) (self : C2SafepointPollStub) (m : C2_MacroAssembler)
    (blob : CodeBlob) (hb : vm.polling_page_return_handler_blob = some blob)
    (hl : m.labels self.entry = none) :
    self.emit vm m = Emit.ok
      { code_begin := m.code_begin
        offset := m.offset
          + vm.instr_size (Instr.lea rscratch1 (AddressLiteral.InternalAddress
              ((m.code_begin + self._safepoint_offset) % 2 ^ 64)))
          + vm.instr_size (Instr.movptr
              (Address.disp r15_thread vm.saved_exception_pc_offset) rscratch1)
          + vm.instr_size (Instr.jump (AddressLiteral.RuntimeAddress blob.entry_point))
        code := m.code ++
          [Instr.lea rscratch1 (AddressLiteral.InternalAddress
              ((m.code_begin + self._safepoint_offset) % 2 ^ 64)),
           Instr.movptr (Address.disp r15_thread vm.saved_exception_pc_offset) rscratch1,
           Instr.jump (AddressLiteral.RuntimeAddress blob.entry_point)]
        labels := fun l => if l = self.entry then some m.offset else m.labels l } := by
  have h := safepoint_pc_eq m.code_begin m.offset self._safepoint_offset
  simp only [Nat.reducePow] at h
  simp [C2SafepointPollStub.emit, assert_fails, hb, C2_MacroAssembler.bind, hl, C2_MacroAssembler.lea,
    C2_MacroAssembler.movptr, C2_MacroAssembler.jump, C2_MacroAssembler.append,
    C2_MacroAssembler.pc, h]

theorem barrier_emit_ok (vm : VM) (self : C2EntryBarrierStub) (m : C2_MacroAssembler)
    (hl : m.labels self.entry = none) :
    self.emit vm m = Emit.ok
      { code_begin := m.code_begin
        offset := m.offset
          + vm.instr_size (Instr.call (AddressLiteral.RuntimeAddress vm.method_entry_barrier))
          + vm.instr_size (Instr.jmp self.continuation (some false))
        code := m.code ++
          [Instr.call (AddressLiteral.RuntimeAddress vm.method_entry_barrier),
           Instr.jmp self.continuation (some false)]
        labels := fun l => if l = self.entry then some m.offset else m.labels l } := by
  simp [C2EntryBarrierStub.emit, C2_MacroAssembler.bind, hl, C2_MacroAssembler.call,
    C2_MacroAssembler.jmp, C2_MacroAssembler.append]

theorem unlock_emit_product (vm : VM) (self : C2FastUnlockLightweightStub)
    (m : C2_MacroAssembler) (hv : vm.ASSERT = false)
    (hl : m.labels self._push_and_slow_path = none) :
    self.emit vm m = Emit.ok
      { code_begin := m.code_begin
        offset := m.offset
          + vm.instr_size (Instr.addl (Address.disp self._thread vm.lock_stack_top_offset)
              vm.oopSize)
          + vm.instr_size (Instr.jmp self.slow_path_continuation none)
        code := m.code ++
          [Instr.addl (Address.disp self._thread vm.lock_stack_top_offset) vm.oopSize,
           Instr.jmp self.slow_path_continuation none]
        labels := fun l => if l = self._push_and_slow_path then some m.offset else m.labels l } := by
  simp [C2FastUnlockLightweightStub.emit, assert_fails, C2_MacroAssembler.bind, hl, hv,
    C2_MacroAssembler.addl, C2_MacroAssembler.jmp, C2_MacroAssembler.append]

theorem unlock_emit_debug (vm : VM) (self : C2FastUnlockLightweightStub)
    (m : C2_MacroAssembler) (hv : vm.ASSERT = true) (ht : self._t = Register.rax)
    (hl : m.labels self._push_and_slow_path = none) :
    self.emit vm m = Emit.ok
      { code_begin := m.code_begin
        offset := m.offset
          + vm.instr_size (Instr.movl self._t
              (Address.disp self._thread vm.lock_stack_top_offset))
          + vm.instr_size (Instr.movptr (Address.index self._thread self._t) self._obj)
          + vm.instr_size (Instr.addl (Address.disp self._thread vm.lock_stack_top_offset)
              vm.oopSize)
          + vm.instr_size (Instr.jmp self.slow_path_continuation none)
        code := m.code ++
          [Instr.movl self._t (Address.disp self._thread vm.lock_stack_top_offset),
           Instr.movptr (Address.index self._thread self._t) self._obj,
           Instr.addl (Address.disp self._thread vm.lock_stack_top_offset) vm.oopSize,
           Instr.jmp self.slow_path_continuation none]
        labels := fun l => if l = self._push_and_slow_path then some m.offset else m.labels l } := by
  simp [C2FastUnlockLightweightStub.emit, assert_fails, C2_MacroAssembler.bind, hl, hv, ht,
    C2_MacroAssembler.addl, C2_MacroAssembler.jmp, C2_MacroAssembler.movl,
    C2_MacroAssembler.movptr, C2_MacroAssembler.append]

theorem emitted_ok_append (m m' : C2_MacroAssembler) (l : List Instr)
    (h : m'.code = m.code ++ l) : emitted m (Emit.ok m') = l := by
  simp [emitted, Emit.masm, h]


theorem load4_lt (mem : Nat → Nat) (a : Nat) : load 4 mem a < 2 ^ 32 := by
  have := load_lt 4 mem a
  norm_num at this ⊢
  exact this

theorem unlock_exec_product (routine : address → Machine → Option Machine) (s : Machine)
    (thread : Register) (off imm : Nat) (L : Label) (ms : Option Bool) :
    exec routine [Instr.addl (Address.disp thread off) imm, Instr.jmp L ms] s [] =
      { exit := Exit.jmp L
        state :=
          { reg := s.reg
            mem := store 4 s.mem (field_address s thread off)
              ((load 4 s.mem (field_address s thread off) + imm) % 2 ^ 32)
            ZF := decide ((load 4 s.mem (field_address s thread off) + imm) % 2 ^ 32 = 0) }
        calls := [] } := by
  rfl

theorem unlock_exec_debug (routine : address → Machine → Option Machine) (s : Machine)
    (thread t obj : Register) (off imm : Nat) (L : Label) (ms : Option Bool)
    (htt : thread ≠ t) :
    exec routine
      [Instr.movl t (Address.disp thread off), Instr.movptr (Address.index thread t) obj,
       Instr.addl (Address.disp thread off) imm, Instr.jmp L ms] s [] =
      { exit := Exit.jmp L
        state :=
          { reg := fun x => if x = t then load 4 s.mem (field_address s thread off) else s.reg x
            mem := store 4
              (store 8 s.mem
                (field_address s thread (load 4 s.mem (field_address s thread off)))
                (if obj = t then load 4 s.mem (field_address s thread off) else s.reg obj))
              (field_address s thread off)
              ((load 4
                  (store 8 s.mem
                    (field_address s thread (load 4 s.mem (field_address s thread off)))
                    (if obj = t then load 4 s.mem (field_address s thread off) else s.reg obj))
                  (field_address s thread off) + imm) % 2 ^ 32)
            ZF := decide ((load 4
                  (store 8 s.mem
                    (field_address s thread (load 4 s.mem (field_address s thread off)))
                    (if obj = t then load 4 s.mem (field_address s thread off) else s.reg obj))
                  (field_address s thread off) + imm) % 2 ^ 32 = 0) }
        calls := [] } := by
  have hlt := load4_lt s.mem (field_address s thread off)
  have hmod : load 4 s.mem (field_address s thread off) % 2 ^ 64
      = load 4 s.mem (field_address s thread off) := Nat.mod_eq_of_lt (by omega)
  simp only [field_address, Address.ea, Nat.reducePow] at hmod
  simp [exec, Machine.set_reg, Address.ea, field_address, htt, hmod]

theorem load4_store4_same (mem : Nat → Nat) (a v : Nat) :
    load 4 (store 4 mem a v) a = v % 2 ^ 32 := by
  have h256 : (256 : Nat) ^ 4 = 2 ^ 32 := by norm_num
  rw [load_store_same, h256]

theorem safepoint_exec (routine : address → Machine → Option Machine) (s : Machine)
    (a off e : Nat) :
    exec routine
      [Instr.lea rscratch1 (AddressLiteral.InternalAddress a),
       Instr.movptr (Address.disp r15_thread off) rscratch1,
       Instr.jump (AddressLiteral.RuntimeAddress e)] s [] =
      { exit := Exit.jump e
        state :=
          { reg := fun x => if x = rscratch1 then a % 2 ^ 64 else s.reg x
            mem := store 8 s.mem (field_address s r15_thread off) (a % 2 ^ 64)
            ZF := s.ZF }
        calls := [] } := by
  simp [exec, Machine.set_reg, Address.ea, field_address, AddressLiteral.target, rscratch1,
    r15_thread]

/-- C2: for every code-section base `B`, every offset `o` at which
`C2SafepointPollStub::emit` starts and every safepoint offset `k` (with `B + k`
an address), emission succeeds and the emitted code, run from any machine
state, leaves by the jump to the handler with the 64-bit slot at
`saved_exception_pc_offset` of `r15_thread` holding exactly `B + k`; the value
does not depend on `o`, on the code emitted before, or on the bound labels. -/
theorem C2_saved_exception_pc_is_base_plus_safepoint_offset
    (vm : VM) (self : C2SafepointPollStub) (B o : Nat) (code : List Instr)
    (labels : Label → Option Nat) (blob : CodeBlob)
    (routine : address → Machine → Option Machine) (s : Machine)
    (hb : vm.polling_page_return_handler_blob = some blob)
    (hl : labels self.entry = none)
    (hk : B + self._safepoint_offset < 2 ^ 64) :
    (self.emit vm { code_begin := B, offset := o, code := code, labels := labels }).succeeded
        = true ∧
    (run_emitted routine { code_begin := B, offset := o, code := code, labels := labels }
        (self.emit vm { code_begin := B, offset := o, code := code, labels := labels }) s).exit
        = Exit.jump blob.entry_point ∧
    load 8
      (run_emitted routine { code_begin := B, offset := o, code := code, labels := labels }
        (self.emit vm { code_begin := B, offset := o, code := code, labels := labels })
        s).state.mem
      (field_address s r15_thread vm.saved_exception_pc_offset)
        = B + self._safepoint_offset := by
  rw [safepoint_emit_ok vm self _ blob hb hl]
  simp only [run_emitted]
  rw [emitted_ok_append _ _ _ rfl, safepoint_exec]
  refine ⟨rfl, rfl, ?_⟩
  simp only []
  have h256 : (256 : Nat) ^ 8 = 2 ^ 64 := by norm_num
  rw [load_store_same, h256]
  repeat rw [Nat.mod_eq_of_lt hk]

/-- C2, the scenario of the specification: after a 50-byte main body, a stub
with safepoint offset 10 records `base + 10`. -/
theorem C2_saved_exception_pc_witness :
    (sample_vm false).polling_page_return_handler_blob = some { entry_point := 0x7f0000200000 } ∧
    load 8
      (run_emitted sample_routine
        { code_begin := 0x7f0000400000, offset := 50, code := [], labels := fun _ => none }
        (sample_safepoint.emit (sample_vm false)
          { code_begin := 0x7f0000400000, offset := 50, code := [], labels := fun _ => none })
        sample_machine).state.mem
      (field_address sample_machine r15_thread (sample_vm false).saved_exception_pc_offset)
        = 0x7f0000400000 + 10 :=
  ⟨rfl, (C2_saved_exception_pc_is_base_plus_safepoint_offset (sample_vm false) sample_safepoint
    0x7f0000400000 50 [] (fun _ => none) { entry_point := 0x7f0000200000 } sample_routine
    sample_machine rfl rfl (by decide)).2.2⟩

/-- C3: for every top index `T` (a value of the 32-bit field, at least one
slot-width), if the lock-stack-top field of the stub's thread holds
`T - oopSize` when control enters the emitted code at `_push_and_slow_path`,
then emission succeeded, control leaves by the jump to the slow-path
continuation label without any call, and the field holds exactly `T`.  This
holds in production builds and in `ASSERT` builds; in `ASSERT` builds the
scratch register is `rax` (asserted by `emit`) and differs from the thread
register, and the lock-stack slot at index `T - oopSize` does not overlap the
field. -/
theorem C3_lock_stack_top_restored_then_slow_path
    (vm : VM) (self : C2FastUnlockLightweightStub) (m : C2_MacroAssembler)
    (routine : address → Machine → Option Machine) (s : Machine) (T : Nat)
    (hl : m.labels self._push_and_slow_path = none)
    (hT : vm.oopSize ≤ T) (hT32 : T < 2 ^ 32)
    (hfield : load 4 s.mem (field_address s self._thread vm.lock_stack_top_offset)
      = T - vm.oopSize)
    (hdebug : vm.ASSERT = true →
      self._t = Register.rax ∧ self._thread ≠ self._t ∧
      (field_address s self._thread (T - vm.oopSize) + 8
          ≤ field_address s self._thread vm.lock_stack_top_offset ∨
        field_address s self._thread vm.lock_stack_top_offset + 4
          ≤ field_address s self._thread (T - vm.oopSize))) :
    (self.emit vm m).succeeded = true ∧
    (run_emitted routine m (self.emit vm m) s).exit = Exit.jmp self.slow_path_continuation ∧
    (run_emitted routine m (self.emit vm m) s).calls = [] ∧
    load 4 (run_emitted routine m (self.emit vm m) s).state.mem
      (field_address s self._thread vm.lock_stack_top_offset) = T := by
  cases hv : vm.ASSERT with
  | false =>
    rw [unlock_emit_product vm self m hv hl]
    simp only [run_emitted]
    rw [emitted_ok_append _ _ _ rfl, unlock_exec_product]
    refine ⟨rfl, rfl, rfl, ?_⟩
    simp only []
    rw [load4_store4_same, hfield]
    omega
  | true =>
    obtain ⟨ht, htt, hdis⟩ := hdebug hv
    rw [unlock_emit_debug vm self m hv ht hl]
    simp only [run_emitted]
    rw [emitted_ok_append _ _ _ rfl, unlock_exec_debug _ _ _ _ _ _ _ _ _ htt]
    refine ⟨rfl, rfl, rfl, ?_⟩
    simp only []
    rw [load4_store4_same, hfield, load_store_disjoint 8 4 _ _ _ _ (by omega), hfield]
    omega

/-- C3 at a sample state: the field holds 1824, and the stub of an `ASSERT`
build leaves it at 1832. -/
theorem C3_lock_stack_top_restored_witness :
    load 4 sample_machine.mem
        (field_address sample_machine sample_unlock._thread (sample_vm true).lock_stack_top_offset)
      = 1832 - (sample_vm true).oopSize ∧
    load 4
      (run_emitted sample_routine sample_masm (sample_unlock.emit (sample_vm true) sample_masm)
        sample_machine).state.mem
      (field_address sample_machine sample_unlock._thread (sample_vm true).lock_stack_top_offset)
      = 1832 :=
  ⟨by decide,
   (C3_lock_stack_top_restored_then_slow_path (sample_vm true) sample_unlock sample_masm
    sample_routine sample_machine 1832 rfl (by decide) (by decide) (by decide)
    (fun _ => ⟨rfl, by decide, by decide⟩)).2.2.2⟩

/-- C4: the code `C2EntryBarrierStub::emit` appends is one call of the shared
method-entry-barrier routine followed by an unconditional jump to the
continuation label.  For every behaviour of the routine, control entering at
the entry label either reaches the continuation label after exactly that one
call, in the very state the routine returned, or never returns from the
call. -/
theorem C4_entry_barrier_calls_once_then_continues
    (vm : VM) (self : C2EntryBarrierStub) (m : C2_MacroAssembler)
    (routine : address → Machine → Option Machine) (s : Machine)
    (hl : m.labels self.entry = none) :
    (self.emit vm m).succeeded = true ∧
    emitted m (self.emit vm m) =
      [Instr.call (AddressLiteral.RuntimeAddress vm.method_entry_barrier),
       Instr.jmp self.continuation (some false)] ∧
    (∀ s', routine vm.method_entry_barrier s = some s' →
      run_emitted routine m (self.emit vm m) s =
        { exit := Exit.jmp self.continuation, state := s',
          calls := [vm.method_entry_barrier] }) ∧
    (routine vm.method_entry_barrier s = none →
      run_emitted routine m (self.emit vm m) s =
        { exit := Exit.call_never_returned vm.method_entry_barrier, state := s,
          calls := [vm.method_entry_barrier] }) := by
  rw [barrier_emit_ok vm self m hl]
  simp only [run_emitted]
  rw [emitted_ok_append _ _ _ rfl]
  refine ⟨rfl, rfl, ?_, ?_⟩
  · intro s' hs
    simp [exec, AddressLiteral.target, hs]
  · intro hs
    simp [exec, AddressLiteral.target, hs]

/-- C4 against a test double that returns at once: the continuation label is
reached after one call. -/
theorem C4_entry_barrier_witness :
    sample_masm.labels sample_barrier.entry = none ∧
    run_emitted sample_routine sample_masm (sample_barrier.emit (sample_vm false) sample_masm)
        sample_machine =
      { exit := Exit.jmp sample_barrier.continuation, state := sample_machine,
        calls := [(sample_vm false).method_entry_barrier] } :=
  ⟨rfl, (C4_entry_barrier_calls_once_then_continues (sample_vm false) sample_barrier
    sample_masm sample_routine sample_machine rfl).2.2.1 sample_machine rfl⟩

theorem safepoint_succeeded (vm : VM) (self : C2SafepointPollStub) (m : C2_MacroAssembler)
    (h : (self.emit vm m).succeeded = true) :
    (∃ blob, vm.polling_page_return_handler_blob = some blob) ∧ m.labels self.entry = none := by
  cases hb : vm.polling_page_return_handler_blob with
  | none => cases hv : vm.ASSERT <;> simp [C2SafepointPollStub.emit, assert_fails, hb, hv, Emit.succeeded] at h
  | some blob =>
    refine ⟨⟨blob, rfl⟩, ?_⟩
    cases hl : m.labels self.entry with
    | none => rfl
    | some o =>
      simp [C2SafepointPollStub.emit, assert_fails, hb, C2_MacroAssembler.bind, hl, Emit.succeeded] at h

theorem barrier_succeeded (vm : VM) (self : C2EntryBarrierStub) (m : C2_MacroAssembler)
    (h : (self.emit vm m).succeeded = true) : m.labels self.entry = none := by
  cases hl : m.labels self.entry with
  | none => rfl
  | some o => simp [C2EntryBarrierStub.emit, C2_MacroAssembler.bind, hl, Emit.succeeded] at h

theorem unlock_succeeded (vm : VM) (self : C2FastUnlockLightweightStub)
    (m : C2_MacroAssembler) (h : (self.emit vm m).succeeded = true) :
    (vm.ASSERT = true → self._t = Register.rax) ∧ m.labels self._push_and_slow_path = none := by
  constructor
  · intro hv
    by_contra ht
    simp [C2FastUnlockLightweightStub.emit, assert_fails, hv, ht, Emit.succeeded] at h
  · cases hl : m.labels self._push_and_slow_path with
    | none => rfl
    | some o =>
      cases hv : vm.ASSERT <;> by_cases ht : self._t = Register.rax <;>
        simp [C2FastUnlockLightweightStub.emit, assert_fails, hv, ht, C2_MacroAssembler.bind, hl,
          Emit.succeeded] at h

/-- The fast-unlock stub in either build: the code appended after a
successful emission. -/
theorem unlock_emit_ok (vm : VM) (self : C2FastUnlockLightweightStub)
    (m : C2_MacroAssembler) (ht : vm.ASSERT = true → self._t = Register.rax)
    (hl : m.labels self._push_and_slow_path = none) :
    ∃ m', self.emit vm m = Emit.ok m' ∧
      m'.labels = (fun l => if l = self._push_and_slow_path then some m.offset else m.labels l) ∧
      m'.code = m.code ++
        ((if vm.ASSERT = true then
            [Instr.movl self._t (Address.disp self._thread vm.lock_stack_top_offset),
             Instr.movptr (Address.index self._thread self._t) self._obj]
          else []) ++
          [Instr.addl (Address.disp self._thread vm.lock_stack_top_offset) vm.oopSize,
           Instr.jmp self.slow_path_continuation none]) ∧
      m'.offset = m.offset +
        (((if vm.ASSERT = true then
            [Instr.movl self._t (Address.disp self._thread vm.lock_stack_top_offset),
             Instr.movptr (Address.index self._thread self._t) self._obj]
          else []) ++
          [Instr.addl (Address.disp self._thread vm.lock_stack_top_offset) vm.oopSize,
           Instr.jmp self.slow_path_continuation none]).map vm.instr_size).sum := by
  cases hv : vm.ASSERT with
  | false =>
    refine ⟨_, unlock_emit_product vm self m hv hl, rfl, ?_, ?_⟩
    · simp
    · simp [Nat.add_assoc]
  | true =>
    refine ⟨_, unlock_emit_debug vm self m hv (ht hv) hl, rfl, ?_, ?_⟩
    · simp
    · simp [Nat.add_assoc]

/-- C5, as amended: whenever emission succeeds, `emit` binds exactly one
label, at the buffer offset at which emission started, and every operation of
the stub is appended from that offset on: the label is `entry()` for
`C2SafepointPollStub` and `C2EntryBarrierStub`, and `_push_and_slow_path`
for `C2FastUnlockLightweightStub`; no other label is touched. -/
theorem C5_emit_binds_one_label_at_start_offset
    (vm : VM) (stub : C2CodeStub) (m : C2_MacroAssembler)
    (h : (stub.emit vm m).succeeded = true) :
    (stub.emit vm m).masm.labels stub.bound_label = some m.offset ∧
    (∀ l, l ≠ stub.bound_label → (stub.emit vm m).masm.labels l = m.labels l) ∧
    (stub.emit vm m).masm.offset
      = m.offset + ((emitted m (stub.emit vm m)).map vm.instr_size).sum := by
  cases stub with
  | SafepointPoll sp =>
    obtain ⟨⟨blob, hb⟩, hl⟩ := safepoint_succeeded vm sp m h
    simp only [C2CodeStub.emit, C2CodeStub.bound_label]
    rw [safepoint_emit_ok vm sp m blob hb hl, emitted_ok_append _ _ _ rfl]
    refine ⟨by simp [Emit.masm], ?_, by simp [Emit.masm, Nat.add_assoc]⟩
    intro l hne
    simp [Emit.masm, hne]
  | EntryBarrier eb =>
    have hl := barrier_succeeded vm eb m h
    simp only [C2CodeStub.emit, C2CodeStub.bound_label]
    rw [barrier_emit_ok vm eb m hl, emitted_ok_append _ _ _ rfl]
    refine ⟨by simp [Emit.masm], ?_, by simp [Emit.masm, Nat.add_assoc]⟩
    intro l hne
    simp [Emit.masm, hne]
  | FastUnlockLightweight fu =>
    obtain ⟨ht, hl⟩ := unlock_succeeded vm fu m h
    obtain ⟨m', he, hlab, hcode, hoff⟩ := unlock_emit_ok vm fu m ht hl
    simp only [C2CodeStub.emit, C2CodeStub.bound_label]
    rw [he, emitted_ok_append _ _ _ hcode]
    refine ⟨by simp [Emit.masm, hlab], ?_, by simpa [Emit.masm] using hoff⟩
    intro l hne
    simp [Emit.masm, hlab, hne]

/-- C5 at sample inputs, one per stub kind, each emitted after a 50-byte main
body: the emission succeeds and the bound label sits at offset 50. -/
theorem C5_emit_binds_one_label_witness :
    (((C2CodeStub.SafepointPoll sample_safepoint).emit (sample_vm false) sample_masm).succeeded
        = true ∧
      ((C2CodeStub.SafepointPoll sample_safepoint).emit (sample_vm false)
        sample_masm).masm.labels sample_safepoint.entry = some 50) ∧
    (((C2CodeStub.EntryBarrier sample_barrier).emit (sample_vm false) sample_masm).succeeded
        = true ∧
      ((C2CodeStub.EntryBarrier sample_barrier).emit (sample_vm false)
        sample_masm).masm.labels sample_barrier.entry = some 50) ∧
    (((C2CodeStub.FastUnlockLightweight sample_unlock).emit (sample_vm true)
        sample_masm).succeeded = true ∧
      ((C2CodeStub.FastUnlockLightweight sample_unlock).emit (sample_vm true)
        sample_masm).masm.labels sample_unlock._push_and_slow_path = some 50) :=
  ⟨⟨rfl, (C5_emit_binds_one_label_at_start_offset (sample_vm false)
      (C2CodeStub.SafepointPoll sample_safepoint) sample_masm rfl).1⟩,
   ⟨rfl, (C5_emit_binds_one_label_at_start_offset (sample_vm false)
      (C2CodeStub.EntryBarrier sample_barrier) sample_masm rfl).1⟩,
   ⟨rfl, (C5_emit_binds_one_label_at_start_offset (sample_vm true)
      (C2CodeStub.FastUnlockLightweight sample_unlock) sample_masm rfl).1⟩⟩

/-- C5 fails as stated for `C2FastUnlockLightweightStub`: after a successful
`emit` its own `entry()` label is still unbound; the label bound at the start
offset is `_push_and_slow_path`. -/
theorem C5_fast_unlock_leaves_entry_unbound :
    (sample_unlock.emit (sample_vm false) sample_masm).succeeded = true ∧
    (sample_unlock.emit (sample_vm false) sample_masm).masm.labels sample_unlock.entry = none ∧
    (sample_unlock.emit (sample_vm false) sample_masm).masm.labels
      sample_unlock._push_and_slow_path = some 50 := by
  refine ⟨rfl, ?_, ?_⟩ <;> rfl

/-- C6, as amended: `C2SafepointPollStub::emit` fails fatally when the polling
page return handler blob is null, leaving the assembler as it was (nothing
appended, no label bound), and succeeds when the blob is resolved and the
entry label unbound; `C2EntryBarrierStub::emit` makes no check of the
method-entry-barrier address: with its entry label unbound it succeeds for
every address, null included, binding the label and appending the call and
the jump. -/
theorem C6_only_safepoint_stub_checks_its_routine
    (vm : VM) (sp : C2SafepointPollStub) (eb : C2EntryBarrierStub) (m : C2_MacroAssembler) :
    (vm.polling_page_return_handler_blob = none →
      (sp.emit vm m).succeeded = false ∧ (sp.emit vm m).masm = m ∧
      emitted m (sp.emit vm m) = []) ∧
    (vm.polling_page_return_handler_blob ≠ none → m.labels sp.entry = none →
      (sp.emit vm m).succeeded = true) ∧
    (m.labels eb.entry = none →
      (eb.emit vm m).succeeded = true ∧
      (eb.emit vm m).masm.labels eb.entry = some m.offset ∧
      emitted m (eb.emit vm m) =
        [Instr.call (AddressLiteral.RuntimeAddress vm.method_entry_barrier),
         Instr.jmp eb.continuation (some false)]) := by
  refine ⟨?_, ?_, ?_⟩
  · intro hb
    cases hv : vm.ASSERT <;>
      simp [C2SafepointPollStub.emit, assert_fails, hb, hv, Emit.succeeded, Emit.masm, emitted]
  · intro hb hl
    cases hb' : vm.polling_page_return_handler_blob with
    | none => exact absurd hb' hb
    | some blob => rw [safepoint_emit_ok vm sp m blob hb' hl]; rfl
  · intro hl
    rw [barrier_emit_ok vm eb m hl, emitted_ok_append _ _ _ rfl]
    exact ⟨rfl, by simp [Emit.masm], rfl⟩

/-- C6 at sample inputs: with no handler blob the safepoint stub fails and
leaves the assembler untouched; the entry barrier stub succeeds although the
barrier routine's address is null. -/
theorem C6_only_safepoint_stub_checks_witness :
    (sample_vm_unresolved true).polling_page_return_handler_blob = none ∧
    (sample_safepoint.emit (sample_vm_unresolved true) sample_masm).succeeded = false ∧
    (sample_barrier.emit (sample_vm_unresolved true) sample_masm).succeeded = true :=
  ⟨rfl,
   ((C6_only_safepoint_stub_checks_its_routine (sample_vm_unresolved true) sample_safepoint
      sample_barrier sample_masm).1 rfl).1,
   ((C6_only_safepoint_stub_checks_its_routine (sample_vm_unresolved true) sample_safepoint
      sample_barrier sample_masm).2.2 rfl).1⟩

/-- C6 fails as stated for `C2EntryBarrierStub`: with the method entry barrier
routine unresolved (null), `emit` does not fail; it binds the entry label and
appends the call to address zero and the jump. -/
theorem C6_entry_barrier_emits_with_null_routine :
    (sample_vm_unresolved true).method_entry_barrier = nullptr ∧
    (sample_barrier.emit (sample_vm_unresolved true) sample_masm).succeeded = true ∧
    (sample_barrier.emit (sample_vm_unresolved true) sample_masm).masm.labels
      sample_barrier.entry = some 50 ∧
    emitted sample_masm (sample_barrier.emit (sample_vm_unresolved true) sample_masm) =
      [Instr.call (AddressLiteral.RuntimeAddress 0),
       Instr.jmp sample_barrier.continuation (some false)] := by
  refine ⟨rfl, rfl, rfl, rfl⟩

theorem emitted_ends_in_jump_of_succeeded
    (vm : VM) (stub : C2CodeStub) (m : C2_MacroAssembler)
    (h : (stub.emit vm m).succeeded = true) :
    (∃ pre last, emitted m (stub.emit vm m) = pre ++ [last] ∧
      last.is_unconditional_jump = true ∧ ∀ i ∈ pre, i.is_unconditional_jump = false) ∧
    (∀ routine s, (run_emitted routine m (stub.emit vm m) s).exit ≠ Exit.fall_through) ∧
    (match stub with
      | C2CodeStub.SafepointPoll sp =>
        ∃ blob, vm.polling_page_return_handler_blob = some blob ∧
          emitted m (stub.emit vm m) =
            [Instr.lea rscratch1 (AddressLiteral.InternalAddress
                ((m.code_begin + sp._safepoint_offset) % 2 ^ 64)),
             Instr.movptr (Address.disp r15_thread vm.saved_exception_pc_offset) rscratch1,
             Instr.jump (AddressLiteral.RuntimeAddress blob.entry_point)]
      | C2CodeStub.EntryBarrier eb =>
        (emitted m (stub.emit vm m)).getLast? = some (Instr.jmp eb.continuation (some false))
      | C2CodeStub.FastUnlockLightweight fu =>
        (emitted m (stub.emit vm m)).getLast?
          = some (Instr.jmp fu.slow_path_continuation none)) := by
  cases stub with
  | SafepointPoll sp =>
    obtain ⟨⟨blob, hb⟩, hl⟩ := safepoint_succeeded vm sp m h
    simp only [C2CodeStub.emit, run_emitted]
    rw [safepoint_emit_ok vm sp m blob hb hl, emitted_ok_append _ _ _ rfl]
    refine ⟨⟨[_, _], _, rfl, rfl, ?_⟩, ?_, ⟨blob, hb, rfl⟩⟩
    · intro i hi
      simp at hi
      rcases hi with hi | hi <;> subst hi <;> rfl
    · intro routine s
      rw [safepoint_exec]
      simp
  | EntryBarrier eb =>
    have hl := barrier_succeeded vm eb m h
    simp only [C2CodeStub.emit, run_emitted]
    rw [barrier_emit_ok vm eb m hl, emitted_ok_append _ _ _ rfl]
    refine ⟨⟨[_], _, rfl, rfl, ?_⟩, ?_, rfl⟩
    · intro i hi
      simp at hi
      subst hi
      rfl
    · intro routine s
      cases hr : routine vm.method_entry_barrier s <;>
        simp [exec, AddressLiteral.target, hr]
  | FastUnlockLightweight fu =>
    obtain ⟨ht, hl⟩ := unlock_succeeded vm fu m h
    simp only [C2CodeStub.emit, run_emitted]
    cases hv : vm.ASSERT with
    | false =>
      rw [unlock_emit_product vm fu m hv hl, emitted_ok_append _ _ _ rfl]
      refine ⟨⟨[_], _, rfl, rfl, ?_⟩, ?_, rfl⟩
      · intro i hi
        simp at hi
        subst hi
        rfl
      · intro routine s
        rw [unlock_exec_product]
        simp
    | true =>
      rw [unlock_emit_debug vm fu m hv (ht hv) hl, emitted_ok_append _ _ _ rfl]
      refine ⟨⟨[_, _, _], _, rfl, rfl, ?_⟩, ?_, rfl⟩
      · intro i hi
        simp at hi
        rcases hi with hi | hi | hi <;> subst hi <;> rfl
      · intro routine s
        simp [exec]

/-- C7: for every stub kind, under the preconditions of its `emit` (the
handler blob resolved for `C2SafepointPollStub`; in `ASSERT` builds the
scratch register `rax` for `C2FastUnlockLightweightStub`; the label to bind
still unbound), emission succeeds and the last operation it appends is an
unconditional jump, so the emitted code never falls through its end.
`C2SafepointPollStub` appends the address computation, the store into the
`saved_exception_pc` slot and then the jump to the shared handler, by which
every run leaves; `C2EntryBarrierStub` appends the call and then the jump to
the continuation label, and a run leaves by that jump unless the call never
returns; `C2FastUnlockLightweightStub` appends its stores and then the jump to
the slow-path continuation label, by which every run leaves.  In every
successful emission of any kind the last operation is an unconditional jump,
no earlier one is, and no run falls through. -/
theorem C7_last_operation_is_unconditional_jump
    (vm : VM) (sp : C2SafepointPollStub) (eb : C2EntryBarrierStub)
    (fu : C2FastUnlockLightweightStub) (m : C2_MacroAssembler) :
    (∀ blob, vm.polling_page_return_handler_blob = some blob → m.labels sp.entry = none →
      (sp.emit vm m).succeeded = true ∧
      emitted m (sp.emit vm m) =
        [Instr.lea rscratch1 (AddressLiteral.InternalAddress
            ((m.code_begin + sp._safepoint_offset) % 2 ^ 64)),
         Instr.movptr (Address.disp r15_thread vm.saved_exception_pc_offset) rscratch1,
         Instr.jump (AddressLiteral.RuntimeAddress blob.entry_point)] ∧
      ∀ routine s,
        (run_emitted routine m (sp.emit vm m) s).exit = Exit.jump blob.entry_point) ∧
    (m.labels eb.entry = none →
      (eb.emit vm m).succeeded = true ∧
      emitted m (eb.emit vm m) =
        [Instr.call (AddressLiteral.RuntimeAddress vm.method_entry_barrier),
         Instr.jmp eb.continuation (some false)] ∧
      ∀ routine s,
        (run_emitted routine m (eb.emit vm m) s).exit = Exit.jmp eb.continuation ∨
        (run_emitted routine m (eb.emit vm m) s).exit
          = Exit.call_never_returned vm.method_entry_barrier) ∧
    ((vm.ASSERT = true → fu._t = Register.rax) → m.labels fu._push_and_slow_path = none →
      (fu.emit vm m).succeeded = true ∧
      emitted m (fu.emit vm m) =
        (if vm.ASSERT = true then
            [Instr.movl fu._t (Address.disp fu._thread vm.lock_stack_top_offset),
             Instr.movptr (Address.index fu._thread fu._t) fu._obj]
          else []) ++
          [Instr.addl (Address.disp fu._thread vm.lock_stack_top_offset) vm.oopSize,
           Instr.jmp fu.slow_path_continuation none] ∧
      ∀ routine s,
        (run_emitted routine m (fu.emit vm m) s).exit = Exit.jmp fu.slow_path_continuation) ∧
    (∀ stub : C2CodeStub, (stub.emit vm m).succeeded = true →
      (∃ pre last, emitted m (stub.emit vm m) = pre ++ [last] ∧
        last.is_unconditional_jump = true ∧ ∀ i ∈ pre, i.is_unconditional_jump = false) ∧
      ∀ routine s, (run_emitted routine m (stub.emit vm m) s).exit ≠ Exit.fall_through) := by
  refine ⟨?_, ?_, ?_, ?_⟩
  · intro blob hb hl
    simp only [run_emitted]
    rw [safepoint_emit_ok vm sp m blob hb hl, emitted_ok_append _ _ _ rfl]
    refine ⟨rfl, rfl, ?_⟩
    intro routine s
    rw [safepoint_exec]
  · intro hl
    simp only [run_emitted]
    rw [barrier_emit_ok vm eb m hl, emitted_ok_append _ _ _ rfl]
    refine ⟨rfl, rfl, ?_⟩
    intro routine s
    cases hr : routine vm.method_entry_barrier s <;>
      simp [exec, AddressLiteral.target, hr]
  · intro ht hl
    simp only [run_emitted]
    cases hv : vm.ASSERT with
    | false =>
      rw [unlock_emit_product vm fu m hv hl, emitted_ok_append _ _ _ rfl]
      refine ⟨rfl, by simp, ?_⟩
      intro routine s
      rw [unlock_exec_product]
    | true =>
      rw [unlock_emit_debug vm fu m hv (ht hv) hl, emitted_ok_append _ _ _ rfl]
      refine ⟨rfl, by simp, ?_⟩
      intro routine s
      simp [exec]
  · intro stub h
    exact ⟨(emitted_ends_in_jump_of_succeeded vm stub m h).1,
      (emitted_ends_in_jump_of_succeeded vm stub m h).2.1⟩

/-- C7 at sample inputs of an `ASSERT` build, one per stub kind: each emission
succeeds and appends its operations with the unconditional jump last. -/
theorem C7_last_operation_witness :
    (sample_vm true).polling_page_return_handler_blob
      = some { entry_point := 0x7f0000200000 } ∧
    ((sample_safepoint.emit (sample_vm true) sample_masm).succeeded = true ∧
      emitted sample_masm (sample_safepoint.emit (sample_vm true) sample_masm) =
        [Instr.lea Register.r10 (AddressLiteral.InternalAddress (0x7f0000400000 + 10)),
         Instr.movptr (Address.disp Register.r15 1000) Register.r10,
         Instr.jump (AddressLiteral.RuntimeAddress 0x7f0000200000)]) ∧
    ((sample_barrier.emit (sample_vm true) sample_masm).succeeded = true ∧
      emitted sample_masm (sample_barrier.emit (sample_vm true) sample_masm) =
        [Instr.call (AddressLiteral.RuntimeAddress 0x7f0000100000),
         Instr.jmp 3 (some false)]) ∧
    ((sample_unlock.emit (sample_vm true) sample_masm).succeeded = true ∧
      emitted sample_masm (sample_unlock.emit (sample_vm true) sample_masm) =
        [Instr.movl Register.rax (Address.disp Register.r15 1800),
         Instr.movptr (Address.index Register.r15 Register.rax) Register.rcx,
         Instr.addl (Address.disp Register.r15 1800) 8,
         Instr.jmp 5 none]) ∧
    (run_emitted sample_routine sample_masm (sample_unlock.emit (sample_vm true) sample_masm)
        sample_machine).exit = Exit.jmp 5 :=
  ⟨rfl,
   ⟨((C7_last_operation_is_unconditional_jump (sample_vm true) sample_safepoint sample_barrier
        sample_unlock sample_masm).1 { entry_point := 0x7f0000200000 } rfl rfl).1,
    ((C7_last_operation_is_unconditional_jump (sample_vm true) sample_safepoint sample_barrier
        sample_unlock sample_masm).1 { entry_point := 0x7f0000200000 } rfl rfl).2.1⟩,
   ⟨((C7_last_operation_is_unconditional_jump (sample_vm true) sample_safepoint sample_barrier
        sample_unlock sample_masm).2.1 rfl).1,
    ((C7_last_operation_is_unconditional_jump (sample_vm true) sample_safepoint sample_barrier
        sample_unlock sample_masm).2.1 rfl).2.1⟩,
   ⟨((C7_last_operation_is_unconditional_jump (sample_vm true) sample_safepoint sample_barrier
        sample_unlock sample_masm).2.2.1 (fun _ => rfl) rfl).1,
    ((C7_last_operation_is_unconditional_jump (sample_vm true) sample_safepoint sample_barrier
        sample_unlock sample_masm).2.2.1 (fun _ => rfl) rfl).2.1⟩,
   ((C7_last_operation_is_unconditional_jump (sample_vm true) sample_safepoint sample_barrier
        sample_unlock sample_masm).2.2.1 (fun _ => rfl) rfl).2.2 sample_routine sample_machine⟩

/-- C8: emission is position independent.  For every stub and any two
assembler states (any current offsets, any code emitted before, any labels
bound) in which emission succeeds, under contexts of the same build and thread
layout, `emit` appends the same operations up to the embedded absolute
addresses; and when the code-section base and the runtime routine addresses
are the same too, it appends exactly the same operations. -/
theorem C8_emission_is_position_independent
    (vm1 vm2 : VM) (stub : C2CodeStub) (m1 m2 : C2_MacroAssembler)
    (hA : vm1.ASSERT = vm2.ASSERT)
    (hpc : vm1.saved_exception_pc_offset = vm2.saved_exception_pc_offset)
    (htop : vm1.lock_stack_top_offset = vm2.lock_stack_top_offset)
    (hoop : vm1.oopSize = vm2.oopSize)
    (h1 : (stub.emit vm1 m1).succeeded = true) (h2 : (stub.emit vm2 m2).succeeded = true) :
    (emitted m1 (stub.emit vm1 m1)).map Instr.shape
      = (emitted m2 (stub.emit vm2 m2)).map Instr.shape ∧
    (m1.code_begin = m2.code_begin →
      vm1.polling_page_return_handler_blob = vm2.polling_page_return_handler_blob →
      vm1.method_entry_barrier = vm2.method_entry_barrier →
      emitted m1 (stub.emit vm1 m1) = emitted m2 (stub.emit vm2 m2)) := by
  cases stub with
  | SafepointPoll sp =>
    obtain ⟨⟨blob1, hb1⟩, hl1⟩ := safepoint_succeeded vm1 sp m1 h1
    obtain ⟨⟨blob2, hb2⟩, hl2⟩ := safepoint_succeeded vm2 sp m2 h2
    simp only [C2CodeStub.emit]
    rw [safepoint_emit_ok vm1 sp m1 blob1 hb1 hl1, emitted_ok_append _ _ _ rfl,
      safepoint_emit_ok vm2 sp m2 blob2 hb2 hl2, emitted_ok_append _ _ _ rfl]
    refine ⟨by simp [Instr.shape, hpc], ?_⟩
    intro hbase hblob _
    rw [hb1, hb2] at hblob
    cases hblob
    rw [hbase, hpc]
  | EntryBarrier eb =>
    have hl1 := barrier_succeeded vm1 eb m1 h1
    have hl2 := barrier_succeeded vm2 eb m2 h2
    simp only [C2CodeStub.emit]
    rw [barrier_emit_ok vm1 eb m1 hl1, emitted_ok_append _ _ _ rfl,
      barrier_emit_ok vm2 eb m2 hl2, emitted_ok_append _ _ _ rfl]
    refine ⟨by simp [Instr.shape], ?_⟩
    intro _ _ hmeb
    rw [hmeb]
  | FastUnlockLightweight fu =>
    obtain ⟨ht1, hl1⟩ := unlock_succeeded vm1 fu m1 h1
    obtain ⟨ht2, hl2⟩ := unlock_succeeded vm2 fu m2 h2
    obtain ⟨a1, he1, _, hc1, _⟩ := unlock_emit_ok vm1 fu m1 ht1 hl1
    obtain ⟨a2, he2, _, hc2, _⟩ := unlock_emit_ok vm2 fu m2 ht2 hl2
    simp only [C2CodeStub.emit]
    rw [he1, emitted_ok_append _ _ _ hc1, he2, emitted_ok_append _ _ _ hc2, hA, htop, hoop]
    exact ⟨rfl, fun _ _ _ => rfl⟩

/-- C8 at sample inputs: the safepoint stub emitted at offset 50 and at
offset 90 of the same section appends the same operations. -/
theorem C8_emission_is_position_independent_witness :
    sample_masm.offset ≠ sample_masm_later.offset ∧
    emitted sample_masm
        ((C2CodeStub.SafepointPoll sample_safepoint).emit (sample_vm true) sample_masm)
      = emitted sample_masm_later
        ((C2CodeStub.SafepointPoll sample_safepoint).emit (sample_vm true) sample_masm_later) :=
  ⟨by decide,
   (C8_emission_is_position_independent (sample_vm true) (sample_vm true)
    (C2CodeStub.SafepointPoll sample_safepoint) sample_masm sample_masm_later
    rfl rfl rfl rfl rfl rfl).2 rfl rfl rfl⟩

/-- C10: the 32-bit `addl` emitted by `C2FastUnlockLightweightStub::emit`
does not overflow.  For every top value `t` the protocol allows on entry
(lock-stack start offset `≤ t`, `t + oopSize ≤` lock-stack end offset, both
offsets positive and below `2 ^ 32`), the sum does not wrap modulo `2 ^ 32`,
the field holds exactly `t + oopSize` after the stub, that value stays within
the lock stack and is non-zero, and the zero flag is clear.  In `ASSERT`
builds the scratch register is `rax` and differs from the thread register,
and the lock-stack slot at index `t` does not overlap the field. -/
theorem C10_increment_does_not_overflow
    (vm : VM) (self : C2FastUnlockLightweightStub) (m : C2_MacroAssembler)
    (routine : address → Machine → Option Machine) (s : Machine)
    (t lock_stack_start_offset lock_stack_end_offset : Nat)
    (hl : m.labels self._push_and_slow_path = none)
    (hstart : 0 < lock_stack_start_offset) (hstart32 : lock_stack_start_offset < 2 ^ 32)
    (hend : 0 < lock_stack_end_offset) (hend32 : lock_stack_end_offset < 2 ^ 32)
    (hlo : lock_stack_start_offset ≤ t) (hhi : t + vm.oopSize ≤ lock_stack_end_offset)
    (hfield : load 4 s.mem (field_address s self._thread vm.lock_stack_top_offset) = t)
    (hdebug : vm.ASSERT = true →
      self._t = Register.rax ∧ self._thread ≠ self._t ∧
      (field_address s self._thread t + 8
          ≤ field_address s self._thread vm.lock_stack_top_offset ∨
        field_address s self._thread vm.lock_stack_top_offset + 4
          ≤ field_address s self._thread t)) :
    (self.emit vm m).succeeded = true ∧
    (t + vm.oopSize) % 2 ^ 32 = t + vm.oopSize ∧
    load 4 (run_emitted routine m (self.emit vm m) s).state.mem
      (field_address s self._thread vm.lock_stack_top_offset) = t + vm.oopSize ∧
    t + vm.oopSize ≤ lock_stack_end_offset ∧
    t + vm.oopSize ≠ 0 ∧
    (run_emitted routine m (self.emit vm m) s).state.ZF = false := by
  have hsum : (t + vm.oopSize) % 2 ^ 32 = t + vm.oopSize := Nat.mod_eq_of_lt (by omega)
  have hne : ¬ (t + vm.oopSize = 0) := by omega
  cases hv : vm.ASSERT with
  | false =>
    rw [unlock_emit_product vm self m hv hl]
    simp only [run_emitted]
    rw [emitted_ok_append _ _ _ rfl, unlock_exec_product]
    refine ⟨rfl, hsum, ?_, hhi, hne, ?_⟩
    · simp only []
      rw [load4_store4_same, hfield, Nat.mod_mod, hsum]
    · simp only []
      rw [hfield, hsum]
      exact decide_eq_false hne
  | true =>
    obtain ⟨ht, htt, hdis⟩ := hdebug hv
    rw [unlock_emit_debug vm self m hv ht hl]
    simp only [run_emitted]
    rw [emitted_ok_append _ _ _ rfl, unlock_exec_debug _ _ _ _ _ _ _ _ _ htt]
    refine ⟨rfl, hsum, ?_, hhi, hne, ?_⟩
    · simp only []
      rw [load4_store4_same, hfield, load_store_disjoint 8 4 _ _ _ _ (by omega), hfield,
        Nat.mod_mod, hsum]
    · simp only []
      rw [hfield, load_store_disjoint 8 4 _ _ _ _ (by omega), hfield, hsum]
      exact decide_eq_false hne

/-- C10 at a sample state: a lock stack spanning offsets 1816 to 1880 with
top 1824; the product stub leaves the field at 1832 and the zero flag
clear. -/
theorem C10_increment_does_not_overflow_witness :
    load 4 sample_machine.mem
        (field_address sample_machine sample_unlock._thread
          (sample_vm false).lock_stack_top_offset) = 1824 ∧
    load 4
      (run_emitted sample_routine sample_masm (sample_unlock.emit (sample_vm false) sample_masm)
        sample_machine).state.mem
      (field_address sample_machine sample_unlock._thread
        (sample_vm false).lock_stack_top_offset) = 1824 + 8 ∧
    (run_emitted sample_routine sample_masm (sample_unlock.emit (sample_vm false) sample_masm)
        sample_machine).state.ZF = false :=
  ⟨by decide,
   (C10_increment_does_not_overflow (sample_vm false) sample_unlock sample_masm sample_routine
      sample_machine 1824 1816 1880 rfl (by decide) (by decide) (by decide) (by decide)
      (by decide) (by decide) (by decide) (fun h => Bool.noConfusion h)).2.2.1,
   (C10_increment_does_not_overflow (sample_vm false) sample_unlock sample_masm sample_routine
      sample_machine 1824 1816 1880 rfl (by decide) (by decide) (by decide) (by decide)
      (by decide) (by decide) (by decide) (fun h => Bool.noConfusion h)).2.2.2.2.2⟩

end C2CodeStubs
